import Mathlib

/-!
Shallow embedding of the Alibaba Function Compute / Express adapter in
`src/app.js`.  The file contains two variants of the exported handler:

* variant 1 (app.js lines 98-184): a synchronous handler whose `send`
  writes directly onto the platform response object `resp`;
* variant 2 (app.js lines 290-399): an asynchronous handler that records
  everything into a local `responseData` object, awaits the Express
  callback, then applies the record to `resp` once and returns the body.

JavaScript objects used as string maps (`headers`, query `params`) are
modelled as association lists with in-place overwrite on assignment.
`JSON.stringify` is modelled for the shapes the program produces
(strings and flat objects with string values).  Node's `URL` +
`URLSearchParams` are modelled by an executable parser over `List Char`.
-/

namespace FtgProxy

/-- First-match lookup in an association list; this models reading a
property of a JavaScript object used as a string map (keys are unique
in any object built by assignment, so first match is the only match). -/
def getHA : List (String × String) → String → Option String
  | [], _ => none
  | (k0, v) :: rest, k => if k0 = k then some v else getHA rest k

/-- Property assignment `obj[k] = v` on a JavaScript object: overwrite
the existing entry in place if the key is present, otherwise append. -/
def setAssoc : List (String × String) → String → String → List (String × String)
  | [], k, v => [(k, v)]
  | (k0, v0) :: t, k, v => if k0 = k then (k, v) :: t else (k0, v0) :: setAssoc t k v

/-- Sequential assignment of a list of key/value pairs (in list order)
onto an object, as done by `forEach` loops in the source. -/
def applySets : List (String × String) → List (String × String) → List (String × String)
  | [], h => h
  | kv :: rest, h => applySets rest (setAssoc h kv.1 kv.2)

/-- Value of the last pair carrying key `k`, if any. -/
def lastVal (l : List (String × String)) (k : String) : Option String :=
  getHA l.reverse k

/-- Keys of an association list. -/
def keysOf (l : List (String × String)) : List String :=
  l.map (fun p => p.1)

/-- No key occurs twice; every object built by assignments satisfies this. -/
def nodupKeys (l : List (String × String)) : Prop :=
  (keysOf l).Nodup

instance (l : List (String × String)) : Decidable (nodupKeys l) := by
  unfold nodupKeys; infer_instance

theorem getHA_setAssoc (h : List (String × String)) (k v k' : String) :
    getHA (setAssoc h k v) k' = if k' = k then some v else getHA h k' := by
  induction h with
  | nil =>
    simp only [setAssoc, getHA]
    by_cases hk : k = k'
    · subst hk; simp
    · have hk' : ¬ k' = k := fun hh => hk hh.symm
      simp [hk, hk']
  | cons p t ih =>
    obtain ⟨k0, v0⟩ := p
    by_cases h0 : k0 = k
    · subst h0
      simp only [setAssoc, if_pos rfl, getHA]
      by_cases hk : k0 = k'
      · subst hk; simp
      · have hk' : ¬ k' = k0 := fun hh => hk hh.symm
        simp [hk, hk']
    · simp only [setAssoc, if_neg h0, getHA]
      by_cases hk : k0 = k'
      · subst hk
        have hk' : ¬ k0 = k := h0
        simp [hk']
      · simp [hk, ih]

theorem getHA_append (a b : List (String × String)) (k : String) :
    getHA (a ++ b) k =
      match getHA a k with
      | some v => some v
      | none => getHA b k := by
  induction a with
  | nil => simp [getHA]
  | cons p t ih =>
    obtain ⟨k0, v0⟩ := p
    by_cases h0 : k0 = k
    · simp [getHA, h0]
    · simp [getHA, h0, ih]

theorem lastVal_cons (p : String × String) (t : List (String × String)) (k : String) :
    lastVal (p :: t) k =
      match lastVal t k with
      | some v => some v
      | none => if p.1 = k then some p.2 else none := by
  obtain ⟨k0, v0⟩ := p
  simp only [lastVal, List.reverse_cons, getHA_append]
  cases getHA t.reverse k with
  | none => simp [getHA]
  | some v => simp

theorem getHA_applySets (l : List (String × String)) (h0 : List (String × String))
    (k : String) :
    getHA (applySets l h0) k =
      match lastVal l k with
      | some v => some v
      | none => getHA h0 k := by
  induction l generalizing h0 with
  | nil => simp [applySets, lastVal, getHA]
  | cons p t ih =>
    obtain ⟨k0, v0⟩ := p
    simp only [applySets, ih, lastVal_cons]
    cases hlv : lastVal t k with
    | some v => simp
    | none =>
      simp only [getHA_setAssoc]
      by_cases hk : k = k0
      · subst hk; simp
      · have hk' : ¬ k0 = k := fun hh => hk hh.symm
        simp [hk, hk']

theorem lastVal_eq_none_of_not_mem (l : List (String × String)) (k : String)
    (h : k ∉ keysOf l) : lastVal l k = none := by
  induction l with
  | nil => simp [lastVal, getHA]
  | cons p t ih =>
    obtain ⟨k0, v0⟩ := p
    have h1 : ¬ k = k0 ∧ k ∉ keysOf t := by
      simpa [keysOf, not_or] using h
    have ht : lastVal t k = none := ih h1.2
    have h2 : ¬ k0 = k := fun hh => h1.1 hh.symm
    rw [lastVal_cons]
    simp [ht, h2]

theorem lastVal_eq_getHA_of_nodup (l : List (String × String)) (k : String)
    (h : nodupKeys l) : lastVal l k = getHA l k := by
  induction l with
  | nil => simp [lastVal, getHA]
  | cons p t ih =>
    obtain ⟨k0, v0⟩ := p
    have h' : k0 ∉ keysOf t ∧ nodupKeys t := by
      simpa [nodupKeys, keysOf] using h
    rw [lastVal_cons]
    by_cases hk : k0 = k
    · subst hk
      have ht : lastVal t k0 = none := lastVal_eq_none_of_not_mem t k0 h'.1
      simp [ht, getHA]
    · have := ih h'.2
      simp only [getHA, if_neg hk, ← this]
      cases lastVal t k with
      | none => simp [hk]
      | some v => simp

theorem keysOf_setAssoc (h : List (String × String)) (k v : String) :
    keysOf (setAssoc h k v) =
      if k ∈ keysOf h then keysOf h else keysOf h ++ [k] := by
  induction h with
  | nil => simp [setAssoc, keysOf]
  | cons p t ih =>
    obtain ⟨k0, v0⟩ := p
    by_cases h0 : k0 = k
    · subst h0
      simp [setAssoc, keysOf]
    · have h0' : ¬ k = k0 := fun hh => h0 hh.symm
      simp only [setAssoc, if_neg h0, keysOf, List.map_cons] at *
      by_cases hm : k ∈ List.map (fun p => p.1) t
      · simp [List.mem_cons, hm, h0', ih]
      · simp [List.mem_cons, hm, h0', ih]

theorem nodupKeys_setAssoc (h : List (String × String)) (k v : String)
    (hn : nodupKeys h) : nodupKeys (setAssoc h k v) := by
  unfold nodupKeys at *
  rw [keysOf_setAssoc]
  by_cases hm : k ∈ keysOf h
  · simpa [hm] using hn
  · simp only [if_neg hm]
    rw [List.nodup_append]
    refine ⟨hn, List.nodup_singleton k, ?_⟩
    intro a ha hb
    simp only [List.mem_singleton] at hb
    subst hb
    exact hm ha

theorem nodupKeys_applySets (l h0 : List (String × String))
    (hn : nodupKeys h0) : nodupKeys (applySets l h0) := by
  induction l generalizing h0 with
  | nil => simpa [applySets] using hn
  | cons p t ih =>
    exact ih _ (nodupKeys_setAssoc _ _ _ hn)

theorem getHA_applySets_nil (A : List (String × String)) (hA : nodupKeys A)
    (k : String) : getHA (applySets A []) k = getHA A k := by
  rw [getHA_applySets, ← lastVal_eq_getHA_of_nodup A k hA]
  cases lastVal A k with
  | none => simp [getHA]
  | some v => simp

theorem mem_iff_getHA_of_nodup (l : List (String × String)) (k v : String)
    (h : nodupKeys l) : (k, v) ∈ l ↔ getHA l k = some v := by
  induction l with
  | nil => simp [getHA]
  | cons p t ih =>
    obtain ⟨k0, v0⟩ := p
    have h' : k0 ∉ keysOf t ∧ nodupKeys t := by
      simpa [nodupKeys, keysOf] using h
    by_cases hk : k0 = k
    · subst hk
      have hnot : (k0, v) ∉ t := by
        intro hm
        exact h'.1 (by
          simp only [keysOf, List.mem_map]
          exact ⟨(k0, v), hm, rfl⟩)
      simp only [getHA, List.mem_cons]
      rw [if_pos trivial]
      constructor
      · rintro (hp | hm)
        · exact congrArg some ((Prod.ext_iff.mp hp).2).symm
        · exact absurd hm hnot
      · intro hv
        have : v0 = v := Option.some.inj hv
        subst this
        exact Or.inl rfl
    · simp only [getHA, if_neg hk, List.mem_cons]
      rw [← ih h'.2]
      constructor
      · rintro (hp | hm)
        · exact absurd ((Prod.ext_iff.mp hp).1).symm hk
        · exact hm
      · exact Or.inr

/-! JSON values and `JSON.stringify`, modelled for the value shapes the
program serializes: plain strings and flat objects with string fields
(the program itself only ever stringifies `\x7b error: err.message \x7d`). -/

/-- JSON string escaping as performed by `JSON.stringify`. -/
def escChars : List Char → List Char
  | [] => []
  | c :: rest =>
    (if c = '"' then ['\\', '"']
     else if c = '\\' then ['\\', '\\']
     else if c = '\n' then ['\\', 'n']
     else if c = '\r' then ['\\', 'r']
     else if c = '\t' then ['\\', 't']
     else [c]) ++ escChars rest

/-- Escape a string for inclusion in a JSON literal. -/
def jEscape (s : String) : String := ⟨escChars s.data⟩

/-- JSON values, restricted to the shapes the program serializes. -/
inductive JVal where
  | str : String → JVal
  | objStr : List (String × String) → JVal
deriving DecidableEq

/-- Serialized fields of a flat string-valued JSON object. -/
def fieldsStr : List (String × String) → String
  | [] => ""
  | [(k, v)] => "\"" ++ jEscape k ++ "\":\"" ++ jEscape v ++ "\""
  | (k, v) :: rest =>
    "\"" ++ jEscape k ++ "\":\"" ++ jEscape v ++ "\"," ++ fieldsStr rest

/-- Model of `JSON.stringify` on the supported value shapes. -/
def stringify : JVal → String
  | .str s => "\"" ++ jEscape s ++ "\""
  | .objStr fs => "\x7b" ++ fieldsStr fs ++ "\x7d"

/-! Model of Node's `URL` and `URLSearchParams`, as used by
`parseQueryParams` (app.js lines 81-95 and 273-287). -/

/-- Split a character list at every occurrence of `c`. -/
def splitList (c : Char) : List Char → List (List Char)
  | [] => [[]]
  | x :: xs =>
    if x = c then [] :: splitList c xs
    else
      match splitList c xs with
      | [] => [[x]]
      | h :: t => (x :: h) :: t

/-- Numeric value of a hexadecimal digit. -/
def hexVal (c : Char) : Option Nat :=
  if '0' ≤ c ∧ c ≤ '9' then some (c.toNat - '0'.toNat)
  else if 'a' ≤ c ∧ c ≤ 'f' then some (c.toNat - 'a'.toNat + 10)
  else if 'A' ≤ c ∧ c ≤ 'F' then some (c.toNat - 'A'.toNat + 10)
  else none

/-- Decoding of one `application/x-www-form-urlencoded` component:
`+` becomes a space and `%hh` a character; a `%` not followed by two hex
digits is kept literally. -/
def decodeChars : List Char → List Char
  | [] => []
  | '+' :: rest => ' ' :: decodeChars rest
  | '%' :: h1 :: h2 :: rest =>
    match hexVal h1, hexVal h2 with
    | some a, some b => Char.ofNat (16 * a + b) :: decodeChars rest
    | _, _ => '%' :: decodeChars (h1 :: h2 :: rest)
  | c :: rest => c :: decodeChars rest

/-- Split one `key=value` segment at the first `=`; a missing `=` yields
an empty value, as `URLSearchParams` does. -/
def splitEq : List Char → List Char × List Char
  | [] => ([], [])
  | '=' :: rest => ([], rest)
  | c :: rest =>
    let p := splitEq rest
    (c :: p.1, p.2)

/-- Decode one query segment into a key/value pair. -/
def pairOfSeg (seg : List Char) : String × String :=
  let p := splitEq seg
  (⟨decodeChars p.1⟩, ⟨decodeChars p.2⟩)

/-- Key/value pairs of a raw query string, in order of occurrence;
empty segments are skipped, as `URLSearchParams` does. -/
def parseQS (q : List Char) : List (String × String) :=
  ((splitList '&' q).filter (fun seg => seg ≠ [])).map pairOfSeg

/-- Parsed URL: host, path, and the query pairs in occurrence order. -/
structure UrlModel where
  host : String
  pathStr : String
  queryPairs : List (String × String)
deriving DecidableEq

/-- Characters after the scheme marker, when the string carries one. -/
def afterScheme (l : List Char) : Option (List Char) :=
  if "http://".data.isPrefixOf l then some (l.drop 7)
  else if "https://".data.isPrefixOf l then some (l.drop 8)
  else none

/-- Model of `new URL(s)`: fails (throws, in JavaScript) when the string
has no recognized scheme marker or an empty host. -/
def urlParse (s : String) : Option UrlModel :=
  match afterScheme s.data with
  | none => none
  | some rest =>
    let host := rest.takeWhile (fun c => !(c == '/' || c == '?' || c == '#'))
    if host.isEmpty then none
    else
      let after := rest.drop host.length
      let pathCs := after.takeWhile (fun c => !(c == '?' || c == '#'))
      let afterPath := after.drop pathCs.length
      let qCs : List Char :=
        match afterPath with
        | '?' :: r => r.takeWhile (fun c => !(c == '#'))
        | _ => []
      some ⟨⟨host⟩, ⟨pathCs⟩, parseQS qCs⟩

/-- The `url.startsWith('http') ? url : 'http://dummy.com' + url` step of
`parseQueryParams` (app.js line 84). -/
def withProtocol (url : String) : String :=
  if "http".data.isPrefixOf url.data then url else "http://dummy.com" ++ url

/-- The `urlObj.searchParams.forEach((value, key) => params[key] = value)`
loop (app.js lines 87-89): sequential assignment into a fresh object. -/
def collectParams (l : List (String × String)) : List (String × String) :=
  applySets l []

/-- Model of `parseQueryParams` (app.js lines 81-95): prepend a dummy
scheme+host to scheme-less URLs, parse, and collect the query pairs into
an object; a parse failure is caught and yields the empty object. -/
def parseQueryParams (url : String) : List (String × String) :=
  match urlParse (withProtocol url) with
  | some u => collectParams u.queryPairs
  | none => []

/-! Request translation (app.js lines 101-110 and 293-302). -/

/-- Response/request bodies: a JavaScript string or a Buffer. -/
inductive BVal where
  | str : String → BVal
  | bytes : List Nat → BVal
deriving DecidableEq

/-- The platform request: method, url, headers, body, optional
pre-parsed query parameters (`req.queries`), and path. -/
structure FCReq where
  method : String
  url : String
  headers : List (String × String)
  body : BVal
  queries : Option (List (String × String))
  path : String
deriving DecidableEq

/-- The synthetic Express request object built by the handler. -/
structure ExpressReq where
  method : String
  url : String
  headers : List (String × String)
  body : BVal
  query : List (String × String)
  params : List (String × String)
  path : String
deriving DecidableEq

/-- Lower-case a string, as `header.toLowerCase()` does. -/
def lowerStr (s : String) : String := ⟨s.data.map Char.toLower⟩

/-- Construction of `expressReq` from the platform request
(app.js lines 101-110): `query` is `req.queries || parseQueryParams(req.url)`
(pre-parsed queries are used verbatim when present). -/
def mkExpressReq (req : FCReq) : ExpressReq :=
  { method := req.method
    url := req.url
    headers := req.headers
    body := req.body
    query :=
      match req.queries with
      | some q => q
      | none => parseQueryParams req.url
    params := []
    path := req.path }

/-- The case-insensitive header getter
`(header) => req.headers[header.toLowerCase()]` (app.js line 109). -/
def expressReqGet (req : FCReq) (header : String) : Option String :=
  getHA req.headers (lowerStr header)

/-! Response adapter semantics. -/

/-- Model of the filesystem seen by `fs.readFileSync`: `none` means the
read throws (for example the file does not exist). -/
def Fs : Type := String → Option (List Nat)

/-- Model of `path.extname`: the extension (with dot) of the last path
component, empty for dotless names and for a single leading dot. -/
def extname (p : String) : String :=
  let base := (splitList '/' p.data).getLastD []
  let parts := splitList '.' base
  match parts with
  | [] => ""
  | [_] => ""
  | [[], _] => ""
  | _ => ⟨'.' :: parts.getLastD []⟩

/-- The fixed extension-to-MIME lookup table of `sendFile`
(app.js lines 148-156 and 340-348), with `text/plain` as the default. -/
def contentTypeFor (ext : String) : String :=
  if ext = ".html" then "text/html"
  else if ext = ".css" then "text/css"
  else if ext = ".js" then "text/javascript"
  else if ext = ".json" then "application/json"
  else if ext = ".png" then "image/png"
  else if ext = ".jpg" then "image/jpeg"
  else if ext = ".gif" then "image/gif"
  else "text/plain"

/-- Operations the middleware chain can perform on the Express response
adapter.  The code exposes exactly `status`, `set`, `json`, `send` and
`sendFile` (there is no `end`, `redirect` or terminal flag in the source). -/
inductive Op where
  | status : Nat → Op
  | set : String → String → Op
  | json : JVal → Op
  | send : BVal → Op
  | sendFile : String → Op
deriving DecidableEq

/-- How the chain finishes after its response-adapter calls: never
signalling, invoking the completion callback (optionally with an error
message), or throwing synchronously. -/
inductive Outcome where
  | never : Outcome
  | callback : Option String → Outcome
  | throws : String → Outcome
deriving DecidableEq

/-- A middleware-chain behaviour: the adapter calls it performs, in
order, followed by how it finishes. -/
structure Chain where
  ops : List Op
  outcome : Outcome
deriving DecidableEq

/-- The mutable `expressRes` / `responseData` record: status, headers,
body. -/
structure ResState where
  statusCode : Nat
  headers : List (String × String)
  body : BVal
deriving DecidableEq

/-- Fresh response record: `statusCode: 200, headers: \x7b\x7d, body: ''`. -/
def initRes : ResState := ⟨200, [], .str ""⟩

/-- The platform response channel of handler variant 1: its status, its
headers, and the list of payloads passed to `resp.send` (one entry per
platform write). -/
structure PlatResp where
  statusCode : Nat
  headers : List (String × String)
  sent : List BVal
deriving DecidableEq

/-- The serialized error body `JSON.stringify(\x7b error: m \x7d)`. -/
def errBody (m : String) : BVal :=
  .str (stringify (JVal.objStr [("error", m)]))

/-- Variant 1 `expressRes.send` (app.js lines 129-142): record the body,
then immediately transfer status, every header and the body onto the
platform response object. -/
def doSendA (b : BVal) : ResState × PlatResp → ResState × PlatResp
  | (r, p) =>
    let r' : ResState := { r with body := b }
    (r', { statusCode := r'.statusCode
           headers := applySets r'.headers p.headers
           sent := p.sent ++ [b] })

/-- One adapter operation of handler variant 1 (app.js lines 112-164). -/
def stepA (fs : Fs) : Op → ResState × PlatResp → ResState × PlatResp
  | .status c, (r, p) => ({ r with statusCode := c }, p)
  | .set k v, (r, p) => ({ r with headers := setAssoc r.headers k v }, p)
  | .json v, (r, p) =>
    doSendA (.str (stringify v))
      ({ r with headers := setAssoc r.headers "Content-Type" "application/json" }, p)
  | .send b, s => doSendA b s
  | .sendFile path, (r, p) =>
    match fs path with
    | some content =>
      doSendA (.bytes content)
        ({ r with
            headers := setAssoc r.headers "Content-Type"
              (contentTypeFor (extname path)) }, p)
    | none => doSendA (.str "File not found") ({ r with statusCode := 404 }, p)

/-- Run a list of adapter operations of handler variant 1. -/
def runA (fs : Fs) : List Op → ResState × PlatResp → ResState × PlatResp
  | [], s => s
  | op :: rest, s => runA fs rest (stepA fs op s)

/-- Handler variant 1 on a given chain behaviour (app.js lines 98-184):
run the chain's adapter calls, then the completion callback's error
branch (lines 167-174) or the outer catch (lines 178-183), both of which
force a 500 JSON error write; an error-free callback and a chain that
never signals leave the platform response as the adapter calls left it. -/
def runV1 (fs : Fs) (ch : Chain) (p0 : PlatResp) : PlatResp :=
  let s := runA fs ch.ops (initRes, p0)
  match ch.outcome with
  | .never => s.2
  | .callback none => s.2
  | .callback (some m) =>
    { statusCode := 500
      headers := setAssoc s.2.headers "Content-Type" "application/json"
      sent := s.2.sent ++ [errBody m] }
  | .throws m =>
    { statusCode := 500
      headers := setAssoc s.2.headers "Content-Type" "application/json"
      sent := s.2.sent ++ [errBody m] }

/-- Handler variant 1 entry point: build the synthetic request, hand it
to the application, and coordinate completion. -/
def handlerV1 (fs : Fs) (app : ExpressReq → Chain) (req : FCReq)
    (p0 : PlatResp) : PlatResp :=
  runV1 fs (app (mkExpressReq req)) p0

/-- The platform response channel of handler variant 2: status, headers,
and the number of times the collected record was applied to it. -/
structure PlatRespB where
  statusCode : Nat
  headers : List (String × String)
  commits : Nat
deriving DecidableEq

/-- The resolved value of handler variant 2: the mutated platform
response and the returned body. -/
structure V2Out where
  resp : PlatRespB
  body : BVal
deriving DecidableEq

/-- One adapter operation of handler variant 2 (app.js lines 311-356):
everything is recorded into `responseData`; nothing reaches the
platform response until the final commit. -/
def stepB (fs : Fs) : Op → ResState → ResState
  | .status c, r => { r with statusCode := c }
  | .set k v, r => { r with headers := setAssoc r.headers k v }
  | .json v, r =>
    { r with
        headers := setAssoc r.headers "Content-Type" "application/json"
        body := .str (stringify v) }
  | .send b, r => { r with body := b }
  | .sendFile path, r =>
    match fs path with
    | some content =>
      { r with
          headers := setAssoc r.headers "Content-Type"
            (contentTypeFor (extname path))
          body := .bytes content }
    | none => { r with statusCode := 404, body := .str "File not found" }

/-- Run a list of adapter operations of handler variant 2. -/
def runB (fs : Fs) : List Op → ResState → ResState
  | [], r => r
  | op :: rest, r => runB fs rest (stepB fs op r)

/-- The commit stage of handler variant 2 (app.js lines 372-379): copy
the recorded status onto the platform response and assign every recorded
header, counting one application of the record. -/
def commitB (p0 : PlatRespB) (r : ResState) : PlatRespB :=
  { statusCode := r.statusCode
    headers := applySets r.headers p0.headers
    commits := p0.commits + 1 }

/-- Handler variant 2 on a chain behaviour (app.js lines 290-399).  The
awaited promise resolves only when the chain's callback fires, so a
chain that never signals yields no resolution (`none`); an error
callback forces a 500 JSON record before the commit (lines 360-369); a
synchronous throw is caught (lines 384-398) and yields a 500 with a JSON
error body returned directly. -/
def runV2 (fs : Fs) (ch : Chain) (p0 : PlatRespB) : Option V2Out :=
  let r := runB fs ch.ops initRes
  match ch.outcome with
  | .never => none
  | .callback (some m) =>
    let r1 : ResState :=
      { statusCode := 500
        headers := setAssoc r.headers "Content-Type" "application/json"
        body := errBody m }
    some ⟨commitB p0 r1, r1.body⟩
  | .callback none => some ⟨commitB p0 r, r.body⟩
  | .throws m =>
    some ⟨{ statusCode := 500
            headers := setAssoc p0.headers "Content-Type" "application/json"
            commits := p0.commits + 1 },
          errBody m⟩

/-- Handler variant 2 entry point. -/
def handlerV2 (fs : Fs) (app : ExpressReq → Chain) (req : FCReq)
    (p0 : PlatRespB) : Option V2Out :=
  runV2 fs (app (mkExpressReq req)) p0

/-- The deployment-level execution ceiling of the function, in seconds
(`timeout: 10` in the Serverless Devs manifest, src/unnamed/part_000
line 18).  This is a platform kill switch, not an adapter timer: no
`setTimeout` or equivalent exists anywhere in app.js. -/
def fcFunctionTimeoutSeconds : Nat := 10

/-- Whether an operation leaves the platform channel untouched in
variant 1 (`status` and `set` only; `json`, `send` and `sendFile` all
reach `resp.send`). -/
def isNT : Op → Bool
  | .status _ => true
  | .set _ _ => true
  | _ => false

/-- The header pairs written by the `set` operations of a list, in order. -/
def setsOf : List Op → List (String × String)
  | [] => []
  | .set k v :: t => (k, v) :: setsOf t
  | _ :: t => setsOf t

/-- The status left by the `status` operations of a list, starting from
a default. -/
def lastStatus : List Op → Nat → Nat
  | [], d => d
  | .status c :: t, _ => lastStatus t c
  | _ :: t, d => lastStatus t d

/-- Number of operations that reach `resp.send` in variant 1. -/
def countTerm : List Op → Nat
  | [] => 0
  | .status _ :: t => countTerm t
  | .set _ _ :: t => countTerm t
  | _ :: t => countTerm t + 1

theorem runA_append (fs : Fs) (a b : List Op) (s : ResState × PlatResp) :
    runA fs (a ++ b) s = runA fs b (runA fs a s) := by
  induction a generalizing s with
  | nil => simp [runA]
  | cons op t ih => simp [runA, ih]

theorem runB_append (fs : Fs) (a b : List Op) (r : ResState) :
    runB fs (a ++ b) r = runB fs b (runB fs a r) := by
  induction a generalizing r with
  | nil => simp [runB]
  | cons op t ih => simp [runB, ih]

theorem runA_nt (fs : Fs) (ops : List Op) (h : ops.all isNT = true)
    (r : ResState) (p : PlatResp) :
    runA fs ops (r, p) =
      ({ statusCode := lastStatus ops r.statusCode
         headers := applySets (setsOf ops) r.headers
         body := r.body }, p) := by
  induction ops generalizing r with
  | nil => simp [runA, lastStatus, setsOf, applySets]
  | cons op t ih =>
    cases op with
    | status c =>
      simp only [List.all_cons, Bool.and_eq_true] at h
      simp only [runA, stepA, lastStatus, setsOf]
      rw [ih h.2]
    | set k v =>
      simp only [List.all_cons, Bool.and_eq_true] at h
      simp only [runA, stepA, lastStatus, setsOf, applySets]
      rw [ih h.2]
    | json v => simp [List.all_cons, isNT] at h
    | send b => simp [List.all_cons, isNT] at h
    | sendFile path => simp [List.all_cons, isNT] at h

theorem runB_nt (fs : Fs) (ops : List Op) (h : ops.all isNT = true)
    (r : ResState) :
    runB fs ops r =
      { statusCode := lastStatus ops r.statusCode
        headers := applySets (setsOf ops) r.headers
        body := r.body } := by
  induction ops generalizing r with
  | nil => simp [runB, lastStatus, setsOf, applySets]
  | cons op t ih =>
    cases op with
    | status c =>
      simp only [List.all_cons, Bool.and_eq_true] at h
      simp only [runB, stepB, lastStatus, setsOf, applySets]
      rw [ih h.2]
    | set k v =>
      simp only [List.all_cons, Bool.and_eq_true] at h
      simp only [runB, stepB, lastStatus, setsOf, applySets]
      rw [ih h.2]
    | json v => simp [List.all_cons, isNT] at h
    | send b => simp [List.all_cons, isNT] at h
    | sendFile path => simp [List.all_cons, isNT] at h

theorem sent_length_runA (fs : Fs) (ops : List Op) (r : ResState)
    (p : PlatResp) :
    ((runA fs ops (r, p)).2).sent.length = p.sent.length + countTerm ops := by
  induction ops generalizing r p with
  | nil => simp [runA, countTerm]
  | cons op t ih =>
    cases op with
    | status c => simp [runA, stepA, countTerm, ih]
    | set k v => simp [runA, stepA, countTerm, ih]
    | json v =>
      simp only [runA, stepA, doSendA, countTerm]
      rw [ih]
      simp
      omega
    | send b =>
      simp only [runA, stepA, doSendA, countTerm]
      rw [ih]
      simp
      omega
    | sendFile path =>
      simp only [runA, stepA, countTerm]
      cases fs path with
      | some content =>
        simp only [doSendA]
        rw [ih]
        simp
        omega
      | none =>
        simp only [doSendA]
        rw [ih]
        simp
        omega

theorem getLast_append_single (l : List BVal) (a : BVal) :
    (l ++ [a]).getLast? = some a := by
  induction l with
  | nil => rfl
  | cons x t ih =>
    cases t with
    | nil => rfl
    | cons y u => simpa [List.cons_append] using ih

/-! Concrete fixtures used by witnesses and counterexamples. -/

/-- Empty filesystem: every read fails. -/
def fs0 : Fs := fun _ => none

/-- Filesystem holding one HTML file. -/
def fs1 : Fs := fun p => if p = "/index.html" then some [60, 104] else none

/-- A plain platform request without pre-parsed queries. -/
def req0 : FCReq := ⟨"GET", "/x", [], .str "", none, "/x"⟩

/-- A platform request whose url is malformed (empty host). -/
def req1 : FCReq := ⟨"GET", "http://", [], .str "", none, "/"⟩

/-- The redemption-status request of the spec's scenario. -/
def req2 : FCReq :=
  ⟨"GET", "/api/redemption-code-status?code=ABC123", [], .str "", none,
   "/api/redemption-code-status"⟩

/-- A platform request with platform-supplied pre-parsed queries. -/
def req2q : FCReq := ⟨"GET", "/p", [], .str "", some [("a", "1")], "/p"⟩

/-- The parse of `http://dummy.com/api/redemption-code-status?code=ABC123`. -/
def u2 : UrlModel :=
  ⟨"dummy.com", "/api/redemption-code-status", [("code", "ABC123")]⟩

/-- Fresh variant-1 platform response. -/
def pInit1 : PlatResp := ⟨200, [], []⟩

/-- Fresh variant-2 platform response. -/
def pInit2 : PlatRespB := ⟨200, [], 0⟩

/-- A chain calling `send` twice, then completing without error. -/
def appTwoSends : ExpressReq → Chain :=
  fun _ => ⟨[Op.send (BVal.str "a"), Op.send (BVal.str "b")], .callback none⟩

/-- A chain doing nothing and completing without error. -/
def appNoOpDone : ExpressReq → Chain := fun _ => ⟨[], .callback none⟩

/-- A chain setting a status and never signalling completion. -/
def appHang : ExpressReq → Chain := fun _ => ⟨[Op.status 201], .never⟩

/-- A chain doing nothing and never signalling completion. -/
def appHangNil : ExpressReq → Chain := fun _ => ⟨[], .never⟩

/-- A chain throwing synchronously with message "boom". -/
def appThrowBoom : ExpressReq → Chain := fun _ => ⟨[], .throws "boom"⟩

/-- A chain setting a status and then failing its callback with "boom". -/
def appErrBoom : ExpressReq → Chain :=
  fun _ => ⟨[Op.status 201], .callback (some "boom")⟩

/-- A chain that only sets a JSON Content-Type, then completes cleanly. -/
def appJsonCTOnly : ExpressReq → Chain :=
  fun _ => ⟨[Op.set "Content-Type" "application/json"], .callback none⟩

/-- A chain calling `sendFile` on a missing path. -/
def appMissFile : ExpressReq → Chain :=
  fun _ => ⟨[Op.sendFile "/missing"], .callback none⟩

/-- A chain calling `sendFile` on the existing HTML file of `fs1`. -/
def appIndexFile : ExpressReq → Chain :=
  fun _ => ⟨[Op.sendFile "/index.html"], .callback none⟩

/-- Non-terminal writes issued before the terminal `send` of `app9`. -/
def pre9 : List Op := [Op.status 201, Op.set "X-A" "1", Op.set "X-A" "2"]

/-- Non-terminal writes issued after the terminal `send` of `app9`. -/
def post9 : List Op := [Op.set "X-B" "9"]

/-- A chain with writes before and after its single terminal `send`. -/
def app9 : ExpressReq → Chain :=
  fun _ => ⟨pre9 ++ Op.send (BVal.str "hi") :: post9, .callback none⟩

/-- A chain whose operation sequence ends in its single terminal `send`. -/
def app9b : ExpressReq → Chain :=
  fun _ => ⟨pre9 ++ [Op.send (BVal.str "hi")], .callback none⟩

/-! Claim C1. -/

/-- C1 counterexample: in handler variant 1 (app.js lines 129-142) every
`send` writes the platform channel directly, so a chain calling `send`
twice produces two platform commits, and a chain reaching no terminal
operation with an error-free callback produces zero commits — refuting
"exactly once per invocation, never twice, never zero". -/
theorem c1_counterexample :
    (handlerV1 fs0 appTwoSends req0 pInit1).sent = [BVal.str "a", BVal.str "b"]
    ∧ (handlerV1 fs0 appNoOpDone req0 pInit1).sent = [] := by
  constructor <;> decide

/-- C1 amended: handler variant 2 applies its collected record to the
platform exactly once whenever the invocation resolves, regardless of
how many terminal operations ran; handler variant 1 instead performs one
platform write per `send`-class operation, so a second terminal call is
a second commit and an invocation with no terminal call and an
error-free callback commits nothing. -/
theorem c1_amended_theorem (fs : Fs) (app : ExpressReq → Chain) (req : FCReq)
    (p0 : PlatResp) (p0b : PlatRespB) (ops : List Op) (outc : Outcome)
    (h1 : app (mkExpressReq req) = ⟨ops, outc⟩) :
    (∀ o, handlerV2 fs app req p0b = some o → o.resp.commits = p0b.commits + 1)
    ∧ (outc = .callback none →
        (handlerV1 fs app req p0).sent.length = p0.sent.length + countTerm ops) := by
  constructor
  · intro o h2
    unfold handlerV2 runV2 at h2
    rw [h1] at h2
    cases outc with
    | never => simp at h2
    | callback e =>
      cases e with
      | none =>
        simp only [Option.some.injEq] at h2
        subst h2
        simp [commitB]
      | some m =>
        simp only [Option.some.injEq] at h2
        subst h2
        simp [commitB]
    | throws m =>
      simp only [Option.some.injEq] at h2
      subst h2
      simp
  · rintro rfl
    unfold handlerV1 runV1
    rw [h1]
    simp only
    exact sent_length_runA fs ops initRes p0

/-- C1 amended, witness at a chain issuing two sends. -/
theorem c1_amended_witness :
    (⟨⟨200, [], 1⟩, BVal.str "b"⟩ : V2Out).resp.commits = pInit2.commits + 1
    ∧ (handlerV1 fs0 appTwoSends req0 pInit1).sent.length =
        pInit1.sent.length +
          countTerm [Op.send (BVal.str "a"), Op.send (BVal.str "b")] :=
  ⟨(c1_amended_theorem fs0 appTwoSends req0 pInit1 pInit2
      [Op.send (BVal.str "a"), Op.send (BVal.str "b")] (.callback none) rfl).1
      ⟨⟨200, [], 1⟩, BVal.str "b"⟩ (by decide),
   (c1_amended_theorem fs0 appTwoSends req0 pInit1 pInit2
      [Op.send (BVal.str "a"), Op.send (BVal.str "b")] (.callback none) rfl).2 rfl⟩

/-! Claim C2. -/

/-- C2: a synchronous exception with message `m` raised while the chain
runs is caught at the outermost boundary of both handler variants
(app.js lines 178-183 and 384-398) and converted into a status-500
response with Content-Type `application/json` and body
`JSON.stringify(\x7b error: m \x7d)`; the handlers are total functions, so no
exception reaches the host runtime. -/
theorem c2_theorem (fs : Fs) (app : ExpressReq → Chain) (req : FCReq)
    (p0 : PlatResp) (p0b : PlatRespB) (m : String) (ops : List Op)
    (h : app (mkExpressReq req) = ⟨ops, .throws m⟩) :
    (handlerV1 fs app req p0).statusCode = 500
    ∧ getHA (handlerV1 fs app req p0).headers "Content-Type" =
        some "application/json"
    ∧ (handlerV1 fs app req p0).sent.getLast? = some (errBody m)
    ∧ handlerV2 fs app req p0b =
        some ⟨⟨500, setAssoc p0b.headers "Content-Type" "application/json",
               p0b.commits + 1⟩, errBody m⟩ := by
  unfold handlerV1 runV1 handlerV2 runV2
  rw [h]
  refine ⟨rfl, ?_, ?_, rfl⟩
  · rw [getHA_setAssoc]
    simp
  · exact getLast_append_single _ _

/-- C2 witness: a chain throwing "boom". -/
theorem c2_witness :
    (handlerV1 fs0 appThrowBoom req0 pInit1).statusCode = 500
    ∧ getHA (handlerV1 fs0 appThrowBoom req0 pInit1).headers "Content-Type" =
        some "application/json"
    ∧ (handlerV1 fs0 appThrowBoom req0 pInit1).sent.getLast? =
        some (errBody "boom")
    ∧ handlerV2 fs0 appThrowBoom req0 pInit2 =
        some ⟨⟨500, setAssoc pInit2.headers "Content-Type" "application/json",
               pInit2.commits + 1⟩, errBody "boom"⟩ :=
  c2_theorem fs0 appThrowBoom req0 pInit1 pInit2 "boom" [] rfl

/-! Claim C3. -/

/-- C3 counterexample: no timeout mechanism exists in the code (the only
`timeout: 10` is the platform kill switch in the deployment manifest,
src/unnamed/part_000 line 18).  A chain that never reaches a terminal
operation and never signals completion makes handler variant 2 never
resolve — it commits nothing at all, rather than resolving with a
gateway-timeout response — and makes handler variant 1 return with the
platform response untouched (status 200, no write, no timeout body). -/
theorem c3_counterexample :
    handlerV2 fs0 appHangNil req0 pInit2 = none
    ∧ handlerV1 fs0 appHangNil req0 pInit1 = ⟨200, [], []⟩ := by
  constructor <;> rfl

/-- C3 amended: if the chain never reaches a terminal operation and
never signals completion, handler variant 2 never resolves (so nothing
is committed) and handler variant 1 performs no platform write;
termination is left to the deployment-level `fcFunctionTimeoutSeconds`
ceiling enforced by the platform, which the adapter does not observe. -/
theorem c3_amended_theorem (fs : Fs) (app : ExpressReq → Chain) (req : FCReq)
    (p0 : PlatResp) (p0b : PlatRespB) (ops : List Op)
    (h : app (mkExpressReq req) = ⟨ops, .never⟩)
    (hnt : ops.all isNT = true) :
    handlerV2 fs app req p0b = none
    ∧ (handlerV1 fs app req p0).sent = p0.sent
    ∧ 0 < fcFunctionTimeoutSeconds := by
  refine ⟨?_, ?_, by decide⟩
  · unfold handlerV2 runV2
    rw [h]
  · unfold handlerV1 runV1
    rw [h]
    simp only
    rw [runA_nt fs ops hnt initRes p0]

/-- C3 amended, witness at a chain setting a status and then hanging. -/
theorem c3_amended_witness :
    handlerV2 fs0 appHang req0 pInit2 = none
    ∧ (handlerV1 fs0 appHang req0 pInit1).sent = pInit1.sent
    ∧ 0 < fcFunctionTimeoutSeconds :=
  c3_amended_theorem fs0 appHang req0 pInit1 pInit2 [Op.status 201] rfl
    (by decide)

/-! Claim C4. -/

/-- C4: a completion callback firing with an error message `m` before
any terminal operation yields, in both handler variants (app.js lines
167-174 and 360-369), a committed response with status 500, Content-Type
`application/json`, and body `JSON.stringify(\x7b error: m \x7d)`. -/
theorem c4_theorem (fs : Fs) (app : ExpressReq → Chain) (req : FCReq)
    (p0 : PlatResp) (p0b : PlatRespB) (m : String) (ops : List Op)
    (h : app (mkExpressReq req) = ⟨ops, .callback (some m)⟩)
    (hnt : ops.all isNT = true)
    (hs : p0.sent = []) (hhb : p0b.headers = []) :
    (handlerV1 fs app req p0).statusCode = 500
    ∧ getHA (handlerV1 fs app req p0).headers "Content-Type" =
        some "application/json"
    ∧ (handlerV1 fs app req p0).sent = [errBody m]
    ∧ ∃ o, handlerV2 fs app req p0b = some o
        ∧ o.resp.statusCode = 500
        ∧ getHA o.resp.headers "Content-Type" = some "application/json"
        ∧ o.body = errBody m := by
  have hA := runA_nt fs ops hnt initRes p0
  have hB := runB_nt fs ops hnt initRes
  unfold handlerV1 runV1 handlerV2 runV2
  rw [h]
  simp only
  rw [hA, hB]
  refine ⟨trivial, ?_, ?_, ?_⟩
  · rw [getHA_setAssoc]
    simp
  · simp [hs]
  · have hnd : nodupKeys
        (setAssoc (applySets (setsOf ops) initRes.headers) "Content-Type"
          "application/json") := by
      apply nodupKeys_setAssoc
      apply nodupKeys_applySets
      simp [initRes, nodupKeys, keysOf]
    refine ⟨_, rfl, rfl, ?_, rfl⟩
    simp only [commitB]
    rw [hhb, getHA_applySets_nil _ hnd, getHA_setAssoc]
    simp

/-- C4 witness: callback error "boom" after a non-terminal status write. -/
theorem c4_witness :
    (handlerV1 fs0 appErrBoom req0 pInit1).statusCode = 500
    ∧ getHA (handlerV1 fs0 appErrBoom req0 pInit1).headers "Content-Type" =
        some "application/json"
    ∧ (handlerV1 fs0 appErrBoom req0 pInit1).sent = [errBody "boom"]
    ∧ handlerV2 fs0 appErrBoom req0 pInit2 =
        some ⟨⟨500, [("Content-Type", "application/json")], 1⟩,
              errBody "boom"⟩ := by
  have h4 := c4_theorem fs0 appErrBoom req0 pInit1 pInit2 "boom"
    [Op.status 201] rfl (by decide) rfl rfl
  exact ⟨h4.1, h4.2.1, h4.2.2.1, by decide⟩

/-! Claim C5. -/

/-- C5 counterexample: the commit stage of handler variant 2 (app.js
lines 372-382) returns `responseData.body` verbatim: with a JSON
Content-Type set and an empty recorded body, the committed payload is
the empty string — there is no substitution of a default structured
success body anywhere in the code. -/
theorem c5_counterexample :
    handlerV2 fs0 appJsonCTOnly req0 pInit2 =
      some ⟨⟨200, [("Content-Type", "application/json")], 1⟩, BVal.str ""⟩ := by
  decide

/-- C5 amended: the commit stage performs no body substitution: for any
chain of non-terminal writes that completes without error, handler
variant 2 resolves and commits exactly the recorded record — the
(empty-string) body and the last-written status — so the fall-through
scenario commits status 200 with an empty body, which is not an error
response. -/
theorem c5_amended_theorem (fs : Fs) (app : ExpressReq → Chain) (req : FCReq)
    (p0b : PlatRespB) (ops : List Op)
    (h : app (mkExpressReq req) = ⟨ops, .callback none⟩)
    (hnt : ops.all isNT = true) :
    (∀ o, handlerV2 fs app req p0b = some o →
      o.body = BVal.str "" ∧ o.resp.statusCode = lastStatus ops 200)
    ∧ (handlerV2 fs app req p0b).isSome = true := by
  have hB := runB_nt fs ops hnt initRes
  unfold handlerV2 runV2
  rw [h]
  simp only
  rw [hB]
  constructor
  · intro o h2
    simp only [Option.some.injEq] at h2
    subst h2
    exact ⟨rfl, rfl⟩
  · rfl

/-- C5 amended, witness at the no-op fall-through chain. -/
theorem c5_amended_witness :
    ((⟨⟨200, [], 1⟩, BVal.str ""⟩ : V2Out).body = BVal.str ""
      ∧ (⟨⟨200, [], 1⟩, BVal.str ""⟩ : V2Out).resp.statusCode =
          lastStatus [] 200)
    ∧ (handlerV2 fs0 appNoOpDone req0 pInit2).isSome = true :=
  ⟨(c5_amended_theorem fs0 appNoOpDone req0 pInit2 [] rfl (by decide)).1
      ⟨⟨200, [], 1⟩, BVal.str ""⟩ (by decide),
   (c5_amended_theorem fs0 appNoOpDone req0 pInit2 [] rfl (by decide)).2⟩

/-! Claim C6. -/

/-- C6 counterexample: `sendFile` on a failing read (app.js lines
160-162) runs `this.status(404).send('File not found')`: the committed
body is the plain string `File not found` and no Content-Type header is
set at all — not a structured JSON error body as the claim states. -/
theorem c6_counterexample :
    handlerV1 fs0 appMissFile req0 pInit1 =
      ⟨404, [], [BVal.str "File not found"]⟩
    ∧ getHA (handlerV1 fs0 appMissFile req0 pInit1).headers "Content-Type" =
        none := by
  constructor <;> decide

/-- C6 amended: when the read fails, `sendFile` sets status 404 and
sends the plain-text string `File not found` (no JSON body, no
Content-Type), and the failure is caught locally — the handler still
returns normally; on a successful read the content type is taken from
the fixed extension table (`text/plain` for unknown extensions) and the
committed body is exactly the file's bytes. -/
theorem c6_amended_theorem (fs : Fs) (app : ExpressReq → Chain) (req : FCReq)
    (p0 : PlatResp) (path : String) (c : List Nat)
    (h : app (mkExpressReq req) = ⟨[Op.sendFile path], .callback none⟩) :
    (fs path = none →
      handlerV1 fs app req p0 =
        ⟨404, p0.headers, p0.sent ++ [BVal.str "File not found"]⟩)
    ∧ (fs path = some c →
      handlerV1 fs app req p0 =
        ⟨200, setAssoc p0.headers "Content-Type" (contentTypeFor (extname path)),
         p0.sent ++ [BVal.bytes c]⟩) := by
  unfold handlerV1 runV1
  rw [h]
  constructor
  · intro hfs
    simp [runA, stepA, hfs, doSendA, initRes, applySets]
  · intro hfs
    simp [runA, stepA, hfs, doSendA, initRes, applySets]

/-- C6 amended, witness on a missing path and on an existing HTML file. -/
theorem c6_amended_witness :
    handlerV1 fs1 appMissFile req0 pInit1 =
      ⟨404, [], [BVal.str "File not found"]⟩
    ∧ handlerV1 fs1 appIndexFile req0 pInit1 =
        ⟨200, [("Content-Type", "text/html")], [BVal.bytes [60, 104]]⟩ := by
  constructor
  · exact (c6_amended_theorem fs1 appMissFile req0 pInit1 "/missing" []
      rfl).1 (by decide)
  · have h6 := (c6_amended_theorem fs1 appIndexFile req0 pInit1 "/index.html"
      [60, 104] rfl).2 (by decide)
    simpa using h6

/-! Claim C7. -/

/-- C7: a malformed URL (one the URL parser rejects) does not raise:
`parseQueryParams` catches the failure and returns the empty mapping
(app.js lines 91-94), the synthetic request is still constructed with an
empty `query`, and the handler still hands it to the application. -/
theorem c7_theorem (req : FCReq) (fs : Fs) (app : ExpressReq → Chain)
    (p0b : PlatRespB)
    (hq : req.queries = none)
    (hbad : urlParse (withProtocol req.url) = none) :
    parseQueryParams req.url = []
    ∧ mkExpressReq req =
        ⟨req.method, req.url, req.headers, req.body, [], [], req.path⟩
    ∧ handlerV2 fs app req p0b = runV2 fs (app (mkExpressReq req)) p0b := by
  have hp : parseQueryParams req.url = [] := by
    unfold parseQueryParams
    rw [hbad]
  refine ⟨hp, ?_, rfl⟩
  simp [mkExpressReq, hq, hp]

/-- C7 witness: `http://` keeps its `http` start, is handed unchanged to
the URL parser, and is rejected there (empty host). -/
theorem c7_witness :
    parseQueryParams req1.url = []
    ∧ mkExpressReq req1 =
        ⟨req1.method, req1.url, req1.headers, req1.body, [], [], req1.path⟩
    ∧ handlerV2 fs0 appNoOpDone req1 pInit2 =
        runV2 fs0 (appNoOpDone (mkExpressReq req1)) pInit2 :=
  c7_theorem req1 fs0 appNoOpDone pInit2 rfl (by decide)

/-! Claim C8. -/

/-- C8: platform-supplied pre-parsed query parameters are used verbatim;
otherwise the synthetic request's `query` mapping is exactly the pairs
parsed from the raw query string (after prepending the placeholder
`http://dummy.com` to scheme-less strings): when no key repeats,
membership in the parsed pair list coincides with lookup in the mapping,
so the mapping equals those pairs up to order. -/
theorem c8_theorem (req : FCReq) (q : List (String × String)) (u : UrlModel) :
    (req.queries = some q → (mkExpressReq req).query = q)
    ∧ (req.queries = none → urlParse (withProtocol req.url) = some u →
        nodupKeys u.queryPairs →
        ∀ k v, ((k, v) ∈ u.queryPairs ↔
          getHA (mkExpressReq req).query k = some v)) := by
  constructor
  · intro hq
    simp [mkExpressReq, hq]
  · intro hq hu hnd k v
    have hqq : (mkExpressReq req).query = collectParams u.queryPairs := by
      simp [mkExpressReq, hq, parseQueryParams, hu]
    rw [hqq]
    unfold collectParams
    rw [mem_iff_getHA_of_nodup _ _ _ hnd, getHA_applySets,
        ← lastVal_eq_getHA_of_nodup _ _ hnd]
    cases lastVal u.queryPairs k with
    | none => simp [getHA]
    | some w => simp

/-- C8 witness: verbatim pre-parsed queries, and the parsed mapping of
the scheme-less `/api/redemption-code-status?code=ABC123`. -/
theorem c8_witness :
    (mkExpressReq req2q).query = [("a", "1")]
    ∧ (("code", "ABC123") ∈ u2.queryPairs ↔
        getHA (mkExpressReq req2).query "code" = some "ABC123") :=
  ⟨(c8_theorem req2q [("a", "1")] u2).1 rfl,
   (c8_theorem req2 [] u2).2 rfl (by decide) (by decide) "code" "ABC123"⟩

/-! Claim C9. -/

/-- Lookup in an object built by assigning a list of pairs in order is
the value of the key's last occurrence in the list. -/
theorem getHA_applySets_nil_eq_lastVal (S : List (String × String))
    (k : String) : getHA (applySets S []) k = lastVal S k := by
  rw [getHA_applySets]
  cases lastVal S k with
  | none => simp [getHA]
  | some v => simp

/-- C9: for a mutation sequence with exactly one terminal `send`, the
committed response carries the body of that terminal operation, the
last-written status, and the last-written value of every header key
(`set` is modelled as state-threading, which is what its `return this`
chaining amounts to); in handler variant 1 the commit happens at the
`send`, so non-terminal writes issued after it are not observed in the
committed response; in handler variant 2 the record is committed at
resolution with the same last-write-wins contents. -/
theorem c9_theorem (fs : Fs) (app : ExpressReq → Chain) (req : FCReq)
    (p0 : PlatResp) (p0b : PlatRespB) (pre post : List Op) (b : BVal)
    (h1 : app (mkExpressReq req) = ⟨pre ++ Op.send b :: post, .callback none⟩)
    (hpre : pre.all isNT = true) (hpost : post.all isNT = true)
    (hh : p0.headers = []) (hs : p0.sent = []) (hhb : p0b.headers = []) :
    (handlerV1 fs app req p0).sent = [b]
    ∧ (handlerV1 fs app req p0).statusCode = lastStatus pre 200
    ∧ (∀ k, getHA (handlerV1 fs app req p0).headers k = lastVal (setsOf pre) k)
    ∧ (post = [] →
        ∃ o, handlerV2 fs app req p0b = some o
          ∧ o.body = b
          ∧ o.resp.statusCode = lastStatus pre 200
          ∧ ∀ k, getHA o.resp.headers k = lastVal (setsOf pre) k) := by
  have hnd0 : nodupKeys (applySets (setsOf pre) ([] : List (String × String))) :=
    nodupKeys_applySets _ _ (by simp [nodupKeys, keysOf])
  have hv1 : handlerV1 fs app req p0 =
      ⟨lastStatus pre 200, applySets (applySets (setsOf pre) []) [], [b]⟩ := by
    unfold handlerV1 runV1
    rw [h1, runA_append, runA_nt fs pre hpre initRes p0]
    simp only [runA, stepA, doSendA]
    rw [runA_nt fs post hpost]
    simp [initRes, hh, hs]
  have hlook : ∀ k,
      getHA (applySets (applySets (setsOf pre) []) []) k =
        lastVal (setsOf pre) k := by
    intro k
    rw [getHA_applySets_nil _ hnd0, getHA_applySets_nil_eq_lastVal]
  refine ⟨by rw [hv1], by rw [hv1], ?_, ?_⟩
  · intro k
    rw [hv1]
    exact hlook k
  · rintro rfl
    have hv2 : handlerV2 fs app req p0b =
        some ⟨⟨lastStatus pre 200, applySets (applySets (setsOf pre) []) [],
               p0b.commits + 1⟩, b⟩ := by
      unfold handlerV2 runV2
      rw [h1, runB_append, runB_nt fs pre hpre initRes]
      simp [runB, stepB, commitB, hhb, initRes]
    exact ⟨_, hv2, rfl, rfl, hlook⟩

/-- C9 witness: status and repeated header writes before the terminal
`send`, a header write after it. -/
theorem c9_witness :
    (handlerV1 fs0 app9 req0 pInit1).sent = [BVal.str "hi"]
    ∧ (handlerV1 fs0 app9 req0 pInit1).statusCode = 201
    ∧ getHA (handlerV1 fs0 app9 req0 pInit1).headers "X-A" = some "2"
    ∧ getHA (handlerV1 fs0 app9 req0 pInit1).headers "X-B" = none
    ∧ (handlerV2 fs0 app9b req0 pInit2).isSome = true := by
  have h9 := c9_theorem fs0 app9 req0 pInit1 pInit2 pre9 post9 (BVal.str "hi")
    rfl (by decide) (by decide) rfl rfl rfl
  have h9b := c9_theorem fs0 app9b req0 pInit1 pInit2 pre9 [] (BVal.str "hi")
    rfl (by decide) (by decide) rfl rfl rfl
  obtain ⟨o, ho, -, -, -⟩ := h9b.2.2.2 rfl
  exact ⟨h9.1, h9.2.1, h9.2.2.1 "X-A", h9.2.2.1 "X-B", by rw [ho]; rfl⟩

/-! Claim C10. -/

/-- C10: the `params[key] = value` loop of `parseQueryParams` binds a
repeated key to the value of its last occurrence in the query string;
values are single strings by construction, never lists. -/
theorem c10_theorem (url : String) (u : UrlModel)
    (h : urlParse (withProtocol url) = some u) (k : String) :
    getHA (parseQueryParams url) k = lastVal u.queryPairs k := by
  unfold parseQueryParams
  rw [h]
  exact getHA_applySets_nil_eq_lastVal u.queryPairs k

/-- C10 witness: `/p?a=1&a=2` binds `a` to `"2"`. -/
theorem c10_witness :
    getHA (parseQueryParams "/p?a=1&a=2") "a" = some "2" := by
  have h10 := c10_theorem "/p?a=1&a=2"
    ⟨"dummy.com", "/p", [("a", "1"), ("a", "2")]⟩ (by decide) "a"
  simpa using h10

end FtgProxy
